import Mathlib

/-!
The paginated dump driver of `utils/dpdkinfo.c`.

A shallow embedding of the dpdkinfo command-line client.  The program keeps its
state in file-level statics; here they are the fields of `State`, which is
passed explicitly.  Standard output and the calls made on the netlink client
are recorded in the same record so that they can be observed.

The transport (`vr_send_info_dump`, `vr_recvmsg`) and the C library
(`getopt_long`, `strtol`) are outside this file's source: their results are
inputs of the model (`Cycle`, `getopt_ret`, `Env`).
-/

namespace Dpdkinfo

/-! ## Data model -/

/-- The operation tag of a sandesh message (`h_op`).  The enumeration is
declared in a generated header; the program only compares against
`SANDESH_OP_DUMP`. -/
inductive sandesh_op
  | SANDESH_OP_ADD
  | SANDESH_OP_GET
  | SANDESH_OP_DEL
  | SANDESH_OP_DUMP
  | SANDESH_OP_RESPONSE
  | SANDESH_OP_RESET
  deriving DecidableEq, Repr

/-- The fields of a decoded `vr_info_req` response (a Payload message) that
`dpdkinfo_resp_cb_process` reads.  `vdu_proc_info` is a `char *`: `none` is the
null pointer. -/
structure vr_info_req where
  h_op : sandesh_op
  vdu_index : Int
  vdu_buff_table_id : Int
  vdu_proc_info : Option String
  deriving DecidableEq, Repr

/-- Modelled from the spec: the `vr_response` message (a Completion message)
carries a boolean "more pending" flag; the structure itself is declared in a
generated header. -/
structure vr_response where
  more : Bool
  deriving DecidableEq, Repr

/-- An inbound message, classified by kind as the netlink callback table does:
`vr_info_req_process` for a Payload, `vr_response_process` for a Completion. -/
inductive nl_message
  | info_req (resp : vr_info_req)
  | response (resp : vr_response)
  deriving DecidableEq, Repr

/-- The arguments of one call `vr_send_info_dump(cl, rid, marker, buff_table_id,
msginfo, buffsz, inbuf)`: what an outbound dump request carries. -/
structure info_dump_request where
  rid : Int
  marker : Int
  buff_table_id : Int
  msginfo : Int
  buffsz : Int
  inbuf : Option String
  deriving DecidableEq, Repr

/-- A call made on the netlink client. -/
inductive nl_call
  | send (req : info_dump_request)
  | recv
  deriving DecidableEq, Repr

/-- The file-level statics of `dpdkinfo.c` (`vr_socket_dir` and the platform
switch belong to the netlink library), followed by the two observables:
the text written to standard output and the log of transport calls. -/
structure State where
  dump_pending : Bool
  dump_marker : Int
  buff_table_id : Int
  buffsz : Int
  help_set : Int
  bond_set : Int
  lacp_set : Int
  sock_dir_set : Int
  vr_info_inbuf : Option String
  msginfo : Int
  vr_socket_dir : Option String
  platform_vtest : Bool
  stdout : String
  calls : List nl_call
  deriving DecidableEq, Repr

/-- The statics as C initialises them: `dump_pending = false`,
`dump_marker = -1`, everything without an initialiser zero or null. -/
def init : State :=
  { dump_pending := false
    dump_marker := -1
    buff_table_id := 0
    buffsz := 0
    help_set := 0
    bond_set := 0
    lacp_set := 0
    sock_dir_set := 0
    vr_info_inbuf := none
    msginfo := 0
    vr_socket_dir := none
    platform_vtest := false
    stdout := ""
    calls := [] }

/-- What the transport does in one request/response cycle: the result of
`vr_send_info_dump`, the messages dispatched to the callbacks while
`vr_recvmsg` runs, and the result of `vr_recvmsg`. -/
structure Cycle where
  send_ret : Int
  msgs : List nl_message
  recv_ret : Int
  deriving DecidableEq, Repr

/-- The parts of the build environment the program text refers to and leaves
to headers and the C library: the value of the enumerator `INFO_BOND` and
`strtol` (applied to a `char *`, base 0). -/
structure Env where
  INFO_BOND : Int
  strtol : Option String → Int

/-- One result of `getopt_long(argc, argv, "h:b:l:s:", long_options, &option_index)`
before the end of the options: a long option (return value 0, `option_index`
set) or a short option character, with `optarg`. -/
inductive getopt_ret
  | long_opt (option_index : Nat) (optarg : Option String)
  | short_opt (opt : Char) (optarg : Option String)
  deriving DecidableEq, Repr

/-- The control outcome of code that may call `exit`. -/
inductive Flow
  | cont (g : State)
  | exit (status : Int) (g : State)
  deriving DecidableEq, Repr

/-! ## Option handling -/

def HELP_OPT_INDEX : Nat := 0
def BOND_OPT_INDEX : Nat := 1
def LACP_OPT_INDEX : Nat := 2
def BUFFSZ_OPT_INDEX : Nat := 3
def SOCK_DIR_OPT_INDEX : Nat := 4
def MAX_OPT_INDEX : Nat := 5

def EINVAL : Int := 22

/-- The store `*flag = val` that `getopt_long` performs for entry `i` of
`long_options`. -/
def long_options_store (i : Nat) (g : State) : State :=
  if i = HELP_OPT_INDEX then { g with help_set := 1 }
  else if i = BOND_OPT_INDEX then { g with bond_set := 1 }
  else if i = LACP_OPT_INDEX then { g with lacp_set := 1 }
  else if i = BUFFSZ_OPT_INDEX then { g with buffsz := 1 }
  else if i = SOCK_DIR_OPT_INDEX then { g with sock_dir_set := 1 }
  else g

/-- `Usage`: print the usage text and `exit(-EINVAL)`. -/
def Usage (g : State) : Flow :=
  .exit (-EINVAL)
    { g with stdout := g.stdout
        ++ "Usage: dpdkinfo [--help]\n"
        ++ "                 --bond|-b                        Show Master/Slave bond information\n"
        ++ "                 --lacp|-l <conf/status/stat/all> Show LACP information from DPDK\n"
        ++ "       Optional: --buffsz  <value>                Send output buffer size\n" }

/-- `validate_options`: one of `--bond`, `--lacp` is required. -/
def validate_options (g : State) : Flow :=
  if !(g.bond_set != 0 || g.lacp_set != 0) then Usage g else .cont g

/-- The conversion `int = (unsigned)long` on a 32-bit `int`. -/
def unsigned_to_int (v : Int) : Int :=
  let u := v % 2 ^ 32
  if u < 2 ^ 31 then u else u - 2 ^ 32

/-- `parse_long_opts`.  The `LACP_OPT_INDEX` case stores only the filter
buffer: the assignment `msginfo = INFO_LACP` is commented out in the source. -/
def parse_long_opts (E : Env) (opt_index : Nat) (opt_arg : Option String)
    (g : State) : Flow :=
  if opt_index = BOND_OPT_INDEX then .cont { g with msginfo := E.INFO_BOND }
  else if opt_index = LACP_OPT_INDEX then .cont { g with vr_info_inbuf := opt_arg }
  else if opt_index = SOCK_DIR_OPT_INDEX then .cont { g with vr_socket_dir := opt_arg }
  else if opt_index = BUFFSZ_OPT_INDEX then
    .cont { g with buffsz := unsigned_to_int (E.strtol opt_arg) }
  else Usage g

/-- The body of the `switch (opt)` in `main` for one `getopt_long` result. -/
def main_switch (E : Env) (r : getopt_ret) (g : State) : Flow :=
  match r with
  | .long_opt option_index optarg =>
      parse_long_opts E option_index optarg (long_options_store option_index g)
  | .short_opt opt optarg =>
      if opt = 'b' then
        parse_long_opts E BOND_OPT_INDEX optarg
          { g with bond_set := 1, msginfo := E.INFO_BOND }
      else if opt = 'l' then
        parse_long_opts E LACP_OPT_INDEX optarg { g with lacp_set := 1 }
      else if opt = 's' then
        parse_long_opts E SOCK_DIR_OPT_INDEX optarg { g with sock_dir_set := 1 }
      else Usage g

/-- The `while (getopt_long(...) >= 0)` loop of `main`. -/
def main_getopt_loop (E : Env) : List getopt_ret → State → Flow
  | [], g => .cont g
  | r :: rs, g =>
      match main_switch E r g with
      | .cont g1 => main_getopt_loop E rs g1
      | .exit status g1 => .exit status g1

/-! ## Response handlers -/

/-- `dpdkinfo_resp_cb_process`: print the text buffer when it is non-null, and
for a DUMP response take over the marker and the buffer table id.  `resp` is
the decoded message the dispatcher passes, so the pointer itself is non-null;
the unused locals `ret` and `platform` are left out. -/
def dpdkinfo_resp_cb_process (resp : vr_info_req) (g : State) : State :=
  let g1 : State :=
    match resp.vdu_proc_info with
    | some text => { g with stdout := g.stdout ++ text }
    | none => g
  if resp.h_op = sandesh_op.SANDESH_OP_DUMP then
    { g1 with dump_marker := resp.vdu_index, buff_table_id := resp.vdu_buff_table_id }
  else g1

/-- Modelled from the spec: `vr_response_common_process(resp, &dump_pending)`
(defined in the utilities library) is the completion handler: it reads the
message's "more pending" flag into `*dump_pending`. -/
def vr_response_common_process (resp : vr_response) (_dump_pending : Bool) : Bool :=
  resp.more

/-- `response_process`. -/
def response_process (resp : vr_response) (g : State) : State :=
  { g with dump_pending := vr_response_common_process resp g.dump_pending }

/-- The callback table filled by `dpdkinfo_fill_nl_callbacks`: dispatch of one
inbound message by kind. -/
def nl_cb (m : nl_message) (g : State) : State :=
  match m with
  | .info_req resp => dpdkinfo_resp_cb_process resp g
  | .response resp => response_process resp g

/-! ## The dump driver -/

/-- The request built at `op_retry` from the statics. -/
def dump_request (g : State) : info_dump_request :=
  { rid := 0
    marker := g.dump_marker
    buff_table_id := g.buff_table_id
    msginfo := g.msginfo
    buffsz := g.buffsz
    inbuf := g.vr_info_inbuf }

/-- Modelled from the spec: `vr_send_info_dump(cl, 0, dump_marker,
buff_table_id, msginfo, buffsz, vr_info_inbuf)` (defined in the netlink
utilities) hands one dump request, built from its arguments, to the transport.
Its result is the `send_ret` of the cycle. -/
def vr_send_info_dump (g : State) : State :=
  { g with calls := g.calls ++ [nl_call.send (dump_request g)] }

/-- Modelled from the spec: `vr_recvmsg(cl, dump)` (defined in the netlink
utilities) blocks on receive and dispatches each inbound message, in order, to
the registered callback.  Its result is the `recv_ret` of the cycle. -/
def vr_recvmsg (msgs : List nl_message) (g : State) : State :=
  msgs.foldl (fun s m => nl_cb m s) { g with calls := g.calls ++ [nl_call.recv] }

/-- `vr_get_dpdkinfo`: the `op_retry` loop, one iteration per scripted cycle.
The result is the returned `int` together with the final state; `none` means
the script ended while the driver was about to send another request. -/
def vr_get_dpdkinfo : List Cycle → State → Option Int × State
  | [], g => (none, g)
  | c :: cs, g =>
      let g1 := vr_send_info_dump g
      if c.send_ret < 0 then (some c.send_ret, g1)
      else
        let g2 := vr_recvmsg c.msgs g1
        if c.recv_ret ≤ 0 then (some c.recv_ret, g2)
        else if g2.dump_pending then vr_get_dpdkinfo cs g2
        else (some 0, g2)

/-- `set_platform_vtest` of the netlink library. -/
def set_platform_vtest (g : State) : State :=
  { g with platform_vtest := true }

/-- `main`.  `args` are the results of `getopt_long`, `cl` tells whether
`vr_get_nl_client` returned a client, `script` is the transport's behaviour.
The first component is the process exit status (`none`: no exit within the
script).  The callback registration is the dispatch `nl_cb`; `parse_ini_file`
cannot reach the file-local statics.  The result of `vr_get_dpdkinfo` is dropped and
`main` returns 0. -/
def main (E : Env) (args : List getopt_ret) (cl : Bool) (script : List Cycle) :
    Option Int × State :=
  match main_getopt_loop E args init with
  | .exit status g => (some status, g)
  | .cont g =>
      match validate_options g with
      | .exit status g1 => (some status, g1)
      | .cont g1 =>
          let g2 := if g1.sock_dir_set != 0 then set_platform_vtest g1 else g1
          if !cl then (some (-1), g2)
          else
            match vr_get_dpdkinfo script g2 with
            | (none, g3) => (none, g3)
            | (some _, g3) => (some 0, g3)

/-! ## Observations -/

/-- The requests handed to the transport, in order. -/
def requests (g : State) : List info_dump_request :=
  g.calls.filterMap (fun c => match c with
    | .send req => some req
    | .recv => none)

/-- The state after one complete cycle: the request is sent and the inbound
messages of the cycle are dispatched. -/
def cycle_step (c : Cycle) (g : State) : State :=
  vr_recvmsg c.msgs (vr_send_info_dump g)

/-- The continuation values (cursor, table id) of a DUMP Payload message. -/
def dump_values : nl_message → Option (Int × Int)
  | .info_req resp =>
      if resp.h_op = sandesh_op.SANDESH_OP_DUMP then
        some (resp.vdu_index, resp.vdu_buff_table_id)
      else none
  | .response _ => none

/-- The continuation values of the last DUMP Payload message of `msgs`, or `d`
when there is none. -/
def last_dump (msgs : List nl_message) (d : Int × Int) : Int × Int :=
  ((msgs.filterMap dump_values).getLast?).getD d

/-- The flag of a Completion message. -/
def completion_flag : nl_message → Option Bool
  | .info_req _ => none
  | .response resp => some resp.more

/-- The flag of the last Completion message of `msgs`, if there is one. -/
def last_completion (msgs : List nl_message) : Option Bool :=
  (msgs.filterMap completion_flag).getLast?

/-- The text buffer of a Payload message, when it has one. -/
def payload_text : nl_message → Option String
  | .info_req resp => resp.vdu_proc_info
  | .response _ => none

/-- The number of receive calls made on the transport. -/
def receives (g : State) : Nat :=
  g.calls.count nl_call.recv

/-- The state in which the loop is back at `op_retry` after the first `k`
cycles of a script have each succeeded and left `dump_pending` set; `none`
when one of them ends the loop (or the script is shorter than `k`). -/
def at_retry : Nat → List Cycle → State → Option State
  | 0, _, g => some g
  | _ + 1, [], _ => none
  | k + 1, c :: cs, g =>
      if 0 ≤ c.send_ret ∧ 0 < c.recv_ret ∧ (cycle_step c g).dump_pending = true then
        at_retry k cs (cycle_step c g)
      else none

/-- The state a control outcome carries. -/
def Flow.state : Flow → State
  | .cont g => g
  | .exit _ g => g

/-- Whether a `getopt_long` result is the lacp option, long or short. -/
def is_lacp_opt : getopt_ret → Bool
  | .long_opt option_index _ => option_index == LACP_OPT_INDEX
  | .short_opt opt _ => opt == 'l'

/-- All messages delivered by the cycles of a script, in order. -/
def all_msgs (script : List Cycle) : List nl_message :=
  script.flatMap (fun c => c.msgs)

/-- The part of the state the dump driver owns. -/
def driver_view (g : State) : Bool × Int × Int × List nl_call :=
  (g.dump_pending, g.dump_marker, g.buff_table_id, g.calls)

/-! ## Concrete inputs -/

/-- A build in which `INFO_BOND` is 0 and `strtol` yields 0. -/
def env0 : Env := ⟨0, fun _ => 0⟩

/-- A DUMP Payload message. -/
def page (index table : Int) (text : String) : nl_message :=
  nl_message.info_req ⟨sandesh_op.SANDESH_OP_DUMP, index, table, some text⟩

/-- The Completion message with more=true. -/
def more_pending : nl_message := nl_message.response ⟨true⟩

/-- The Completion message with more=false. -/
def no_more : nl_message := nl_message.response ⟨false⟩

/-- The option `--bond`. -/
def opt_bond : getopt_ret := getopt_ret.long_opt BOND_OPT_INDEX none

/-- The option `--lacp status`. -/
def opt_lacp_status : getopt_ret := getopt_ret.long_opt LACP_OPT_INDEX (some "status")

/-- Two pages: a first page with one row and more pending, then the end. -/
def script_two_pages : List Cycle :=
  [⟨0, [page 5 2 "row\n", more_pending], 1⟩, ⟨0, [no_more], 1⟩]

/-- A first page with more pending, then a send that fails with -5. -/
def script_second_send_fails : List Cycle :=
  [⟨0, [page 5 2 "row\n", more_pending], 1⟩, ⟨-5, [], 0⟩, ⟨0, [no_more], 1⟩]

/-- A first page with more pending, then a receive that fails with -1. -/
def script_second_recv_fails : List Cycle :=
  [⟨0, [page 5 2 "row\n", more_pending], 1⟩, ⟨0, [], -1⟩, ⟨0, [no_more], 1⟩]

/-- A cycle that delivers a Payload message and then end-of-stream (receive
result 0), with no Completion message. -/
def cycle_end_of_stream : Cycle :=
  ⟨0, [page 5 2 "row\n"], 0⟩

/-- A cycle whose receive succeeds but delivers a Payload message only. -/
def cycle_without_completion : Cycle :=
  ⟨0, [page 5 2 "row\n"], 1⟩

/-- A page with more pending, then a cycle without a Completion message, then
a final page. -/
def script_missing_completion : List Cycle :=
  [⟨0, [more_pending], 1⟩, cycle_without_completion, ⟨0, [no_more], 1⟩]

/-- The first send fails with -1. -/
def script_first_send_fails : List Cycle :=
  [⟨-1, [], 0⟩]

/-! ## Frame lemmas for the handlers -/

theorem nl_cb_calls (m : nl_message) (g : State) : (nl_cb m g).calls = g.calls := by
  cases m with
  | info_req resp =>
      simp only [nl_cb, dpdkinfo_resp_cb_process]
      cases resp.vdu_proc_info <;> split <;> rfl
  | response resp => rfl

theorem nl_cb_request_fields (m : nl_message) (g : State) :
    (nl_cb m g).msginfo = g.msginfo ∧ (nl_cb m g).buffsz = g.buffsz ∧
      (nl_cb m g).vr_info_inbuf = g.vr_info_inbuf := by
  cases m with
  | info_req resp =>
      simp only [nl_cb, dpdkinfo_resp_cb_process]
      cases resp.vdu_proc_info <;> split <;> exact ⟨rfl, rfl, rfl⟩
  | response resp => exact ⟨rfl, rfl, rfl⟩

theorem foldl_nl_cb_calls (msgs : List nl_message) (g : State) :
    (msgs.foldl (fun s m => nl_cb m s) g).calls = g.calls := by
  induction msgs generalizing g with
  | nil => rfl
  | cons m ms ih => rw [List.foldl_cons, ih, nl_cb_calls]

theorem foldl_nl_cb_request_fields (msgs : List nl_message) (g : State) :
    (msgs.foldl (fun s m => nl_cb m s) g).msginfo = g.msginfo ∧
      (msgs.foldl (fun s m => nl_cb m s) g).buffsz = g.buffsz ∧
      (msgs.foldl (fun s m => nl_cb m s) g).vr_info_inbuf = g.vr_info_inbuf := by
  induction msgs generalizing g with
  | nil => exact ⟨rfl, rfl, rfl⟩
  | cons m ms ih =>
      rw [List.foldl_cons]
      obtain ⟨h1, h2, h3⟩ := ih (nl_cb m g)
      obtain ⟨k1, k2, k3⟩ := nl_cb_request_fields m g
      exact ⟨h1.trans k1, h2.trans k2, h3.trans k3⟩

/-- After a list of messages is dispatched, `dump_pending` is the flag of the
last Completion message, or its old value when there was none. -/
theorem foldl_nl_cb_dump_pending (msgs : List nl_message) (g : State) :
    (msgs.foldl (fun s m => nl_cb m s) g).dump_pending =
      (last_completion msgs).getD g.dump_pending := by
  induction msgs using List.reverseRecOn with
  | nil => rfl
  | append_singleton ms m ih =>
      rw [List.foldl_append, List.foldl_cons, List.foldl_nil]
      cases m with
      | info_req resp =>
          have h : (nl_cb (nl_message.info_req resp)
              (ms.foldl (fun s m => nl_cb m s) g)).dump_pending =
              (ms.foldl (fun s m => nl_cb m s) g).dump_pending := by
            simp only [nl_cb, dpdkinfo_resp_cb_process]
            cases resp.vdu_proc_info <;> split <;> rfl
          rw [h, ih]
          simp [last_completion, List.filterMap_append, completion_flag]
      | response resp =>
          simp [last_completion, List.filterMap_append, completion_flag, nl_cb,
            response_process, vr_response_common_process]

/-- After a list of messages is dispatched, the cursor and the table id are
those of the last DUMP Payload message, or the old ones when there was none. -/
theorem foldl_nl_cb_continuation (msgs : List nl_message) (g : State) :
    ((msgs.foldl (fun s m => nl_cb m s) g).dump_marker,
        (msgs.foldl (fun s m => nl_cb m s) g).buff_table_id) =
      last_dump msgs (g.dump_marker, g.buff_table_id) := by
  induction msgs using List.reverseRecOn with
  | nil => rfl
  | append_singleton ms m ih =>
      rw [List.foldl_append, List.foldl_cons, List.foldl_nil]
      cases m with
      | info_req resp =>
          by_cases hop : resp.h_op = sandesh_op.SANDESH_OP_DUMP
          · simp [last_dump, List.filterMap_append, dump_values, nl_cb,
              dpdkinfo_resp_cb_process, hop]
          · have h1 : (nl_cb (nl_message.info_req resp)
                (ms.foldl (fun s m => nl_cb m s) g)).dump_marker =
                (ms.foldl (fun s m => nl_cb m s) g).dump_marker := by
              simp only [nl_cb, dpdkinfo_resp_cb_process, hop, if_false]
              cases resp.vdu_proc_info <;> rfl
            have h2 : (nl_cb (nl_message.info_req resp)
                (ms.foldl (fun s m => nl_cb m s) g)).buff_table_id =
                (ms.foldl (fun s m => nl_cb m s) g).buff_table_id := by
              simp only [nl_cb, dpdkinfo_resp_cb_process, hop, if_false]
              cases resp.vdu_proc_info <;> rfl
            rw [h1, h2, ih]
            simp [last_dump, List.filterMap_append, dump_values, hop]
      | response resp =>
          have h : ((nl_cb (nl_message.response resp)
              (ms.foldl (fun s m => nl_cb m s) g)).dump_marker,
              (nl_cb (nl_message.response resp)
              (ms.foldl (fun s m => nl_cb m s) g)).buff_table_id) =
              ((ms.foldl (fun s m => nl_cb m s) g).dump_marker,
                (ms.foldl (fun s m => nl_cb m s) g).buff_table_id) := rfl
          rw [h, ih]
          simp [last_dump, List.filterMap_append, dump_values]

/-- After a list of messages is dispatched, standard output has grown by the
text buffers of the Payload messages, in order. -/
theorem foldl_nl_cb_stdout (msgs : List nl_message) (g : State) :
    (msgs.foldl (fun s m => nl_cb m s) g).stdout =
      g.stdout ++ String.join (msgs.filterMap payload_text) := by
  induction msgs using List.reverseRecOn with
  | nil => simp [String.join]
  | append_singleton ms m ih =>
      rw [List.foldl_append, List.foldl_cons, List.foldl_nil]
      cases m with
      | info_req resp =>
          cases ht : resp.vdu_proc_info with
          | none =>
              have h : (nl_cb (nl_message.info_req resp)
                  (ms.foldl (fun s m => nl_cb m s) g)).stdout =
                  (ms.foldl (fun s m => nl_cb m s) g).stdout := by
                simp only [nl_cb, dpdkinfo_resp_cb_process, ht]
                split <;> rfl
              rw [h, ih]
              simp [List.filterMap_append, payload_text, ht]
          | some t =>
              have h : (nl_cb (nl_message.info_req resp)
                  (ms.foldl (fun s m => nl_cb m s) g)).stdout =
                  (ms.foldl (fun s m => nl_cb m s) g).stdout ++ t := by
                simp only [nl_cb, dpdkinfo_resp_cb_process, ht]
                split <;> rfl
              rw [h, ih]
              simp [List.filterMap_append, payload_text, ht, String.join,
                List.foldl_append, String.append_assoc]
      | response resp =>
          have h : (nl_cb (nl_message.response resp)
              (ms.foldl (fun s m => nl_cb m s) g)).stdout =
              (ms.foldl (fun s m => nl_cb m s) g).stdout := rfl
          rw [h, ih]
          simp [List.filterMap_append, payload_text]

/-! ## Lemmas on one cycle and on the loop -/

theorem stdout_cycle_step (c : Cycle) (g : State) :
    (cycle_step c g).stdout = g.stdout ++ String.join (c.msgs.filterMap payload_text) := by
  simp only [cycle_step, vr_recvmsg, foldl_nl_cb_stdout]
  rfl


theorem last_completion_of_getLast (msgs : List nl_message) (b : Bool)
    (h : msgs.getLast? = some (nl_message.response ⟨b⟩)) :
    last_completion msgs = some b := by
  obtain ⟨ys, rfl⟩ := List.getLast?_eq_some_iff.mp h
  simp [last_completion, List.filterMap_append, completion_flag]

theorem requests_send (g : State) :
    requests (vr_send_info_dump g) = requests g ++ [dump_request g] := by
  simp [requests, vr_send_info_dump, List.filterMap_append]

theorem calls_cycle_step (c : Cycle) (g : State) :
    (cycle_step c g).calls =
      g.calls ++ [nl_call.send (dump_request g), nl_call.recv] := by
  simp [cycle_step, vr_recvmsg, foldl_nl_cb_calls, vr_send_info_dump]

theorem requests_cycle_step (c : Cycle) (g : State) :
    requests (cycle_step c g) = requests g ++ [dump_request g] := by
  simp [requests, calls_cycle_step, List.filterMap_append]

theorem dump_pending_cycle_step (c : Cycle) (g : State) :
    (cycle_step c g).dump_pending = (last_completion c.msgs).getD g.dump_pending := by
  simp [cycle_step, vr_recvmsg, foldl_nl_cb_dump_pending, vr_send_info_dump]

theorem continuation_cycle_step (c : Cycle) (g : State) :
    ((cycle_step c g).dump_marker, (cycle_step c g).buff_table_id) =
      last_dump c.msgs (g.dump_marker, g.buff_table_id) := by
  simp only [cycle_step, vr_recvmsg, foldl_nl_cb_continuation]
  rfl

theorem request_fields_cycle_step (c : Cycle) (g : State) :
    (cycle_step c g).msginfo = g.msginfo ∧ (cycle_step c g).buffsz = g.buffsz ∧
      (cycle_step c g).vr_info_inbuf = g.vr_info_inbuf := by
  simp only [cycle_step, vr_recvmsg]
  exact foldl_nl_cb_request_fields _ _

/-- One unfolding of the `op_retry` loop. -/
theorem vr_get_dpdkinfo_cons (c : Cycle) (cs : List Cycle) (g : State) :
    vr_get_dpdkinfo (c :: cs) g =
      if c.send_ret < 0 then (some c.send_ret, vr_send_info_dump g)
      else if c.recv_ret ≤ 0 then (some c.recv_ret, cycle_step c g)
      else if (cycle_step c g).dump_pending then vr_get_dpdkinfo cs (cycle_step c g)
      else (some 0, cycle_step c g) := rfl

/-- A cycle that succeeds and leaves `dump_pending` set goes round the loop. -/
theorem vr_get_dpdkinfo_continue (c : Cycle) (cs : List Cycle) (g : State)
    (hs : 0 ≤ c.send_ret) (hr : 0 < c.recv_ret)
    (hp : (cycle_step c g).dump_pending = true) :
    vr_get_dpdkinfo (c :: cs) g = vr_get_dpdkinfo cs (cycle_step c g) := by
  rw [vr_get_dpdkinfo_cons, if_neg (not_lt.mpr hs), if_neg (not_le.mpr hr), if_pos hp]

/-- A cycle that succeeds and leaves `dump_pending` clear ends the loop with 0. -/
theorem vr_get_dpdkinfo_done (c : Cycle) (cs : List Cycle) (g : State)
    (hs : 0 ≤ c.send_ret) (hr : 0 < c.recv_ret)
    (hp : (cycle_step c g).dump_pending = false) :
    vr_get_dpdkinfo (c :: cs) g = (some 0, cycle_step c g) := by
  rw [vr_get_dpdkinfo_cons, if_neg (not_lt.mpr hs), if_neg (not_le.mpr hr), if_neg (by simp [hp])]

theorem receives_cycle_step (c : Cycle) (g : State) :
    receives (cycle_step c g) = receives g + 1 := by
  simp [receives, calls_cycle_step, List.count_append, List.count_cons]

theorem receives_send (g : State) : receives (vr_send_info_dump g) = receives g := by
  simp [receives, vr_send_info_dump, List.count_append, List.count_cons]

theorem last_dump_append (a b : List nl_message) (d : Int × Int) :
    last_dump (a ++ b) d = last_dump b (last_dump a d) := by
  simp only [last_dump, List.filterMap_append, List.getLast?_append]
  cases (List.filterMap dump_values b).getLast? <;> simp

theorem last_completion_append (a b : List nl_message) (x : Bool) :
    (last_completion (a ++ b)).getD x =
      (last_completion b).getD ((last_completion a).getD x) := by
  simp only [last_completion, List.filterMap_append, List.getLast?_append]
  cases (List.filterMap completion_flag b).getLast? <;> simp

/-- The requests of a run extend those already logged, and when the script is
not empty the first new one is built from the state at entry. -/
theorem requests_run_cons (c : Cycle) (cs : List Cycle) (g : State) :
    ∃ more, requests (vr_get_dpdkinfo (c :: cs) g).2 =
      requests g ++ dump_request g :: more := by
  induction cs generalizing c g with
  | nil =>
      rw [vr_get_dpdkinfo_cons]
      split_ifs <;>
        first
          | exact ⟨[], requests_send g⟩
          | exact ⟨[], requests_cycle_step c g⟩
  | cons d ds ih =>
      rw [vr_get_dpdkinfo_cons]
      split_ifs
      · exact ⟨[], requests_send g⟩
      · exact ⟨[], requests_cycle_step c g⟩
      · obtain ⟨more, hm⟩ := ih d (cycle_step c g)
        refine ⟨dump_request (cycle_step c g) :: more, ?_⟩
        rw [hm, requests_cycle_step]
        simp
      · exact ⟨[], requests_cycle_step c g⟩

/-- When the script still has a cycle at position `k` and the loop is back at
`op_retry` after `k` cycles, the run is the run of the rest of the script from
that state. -/
theorem run_of_at_retry (k : Nat) (script : List Cycle) (g g1 : State)
    (h : at_retry k script g = some g1) :
    vr_get_dpdkinfo script g = vr_get_dpdkinfo (script.drop k) g1 := by
  induction k generalizing script g with
  | zero =>
      simp only [at_retry, Option.some.injEq] at h
      subst h
      rfl
  | succ k ih =>
      cases script with
      | nil => simp [at_retry] at h
      | cons c cs =>
          simp only [at_retry] at h
          split_ifs at h with hc
          obtain ⟨hs, hr, hp⟩ := hc
          rw [vr_get_dpdkinfo_continue c cs g hs hr hp, List.drop_succ_cons]
          exact ih cs (cycle_step c g) h

/-- What the state at `op_retry` after `k` cycles holds. -/
theorem at_retry_state (k : Nat) (script : List Cycle) (g g1 : State)
    (h : at_retry k script g = some g1) :
    k ≤ script.length ∧
      (requests g1).length = (requests g).length + k ∧
      receives g1 = receives g + k ∧
      (g1.dump_marker, g1.buff_table_id) =
        last_dump (all_msgs (script.take k)) (g.dump_marker, g.buff_table_id) ∧
      g1.dump_pending = (last_completion (all_msgs (script.take k))).getD g.dump_pending ∧
      g1.msginfo = g.msginfo ∧ g1.buffsz = g.buffsz ∧ g1.vr_info_inbuf = g.vr_info_inbuf := by
  induction k generalizing script g with
  | zero =>
      simp only [at_retry, Option.some.injEq] at h
      subst h
      simp [all_msgs, last_dump, last_completion]
  | succ k ih =>
      cases script with
      | nil => simp [at_retry] at h
      | cons c cs =>
          simp only [at_retry] at h
          split_ifs at h with hc
          obtain ⟨h1, h2, h3, h4, h5, h6, h7, h8⟩ := ih cs (cycle_step c g) h
          obtain ⟨f1, f2, f3⟩ := request_fields_cycle_step c g
          refine ⟨by simpa using h1, ?_, ?_, ?_, ?_, h6.trans f1, h7.trans f2, h8.trans f3⟩
          · rw [h2, requests_cycle_step]; simp; omega
          · rw [h3, receives_cycle_step]; omega
          · rw [h4, continuation_cycle_step]
            simp only [List.take_succ_cons, all_msgs, List.flatMap_cons]
            rw [last_dump_append]
          · rw [h5, dump_pending_cycle_step]
            simp only [List.take_succ_cons, all_msgs, List.flatMap_cons]
            rw [last_completion_append]

/-- The cycles before position `k` all succeeded when the loop is back at
`op_retry` after `k` cycles. -/
theorem at_retry_cycles (k : Nat) (script : List Cycle) (g g1 : State)
    (h : at_retry k script g = some g1) (j : Nat) (hj : j < k) :
    ∃ c, script[j]? = some c ∧ 0 ≤ c.send_ret ∧ 0 < c.recv_ret := by
  induction k generalizing script g j with
  | zero => omega
  | succ k ih =>
      cases script with
      | nil => simp [at_retry] at h
      | cons c cs =>
          simp only [at_retry] at h
          split_ifs at h with hc
          cases j with
          | zero => exact ⟨c, by simp, hc.1, hc.2.1⟩
          | succ j =>
              obtain ⟨d, hd, hd2⟩ := ih cs (cycle_step c g) h j (by omega)
              exact ⟨d, by simpa using hd, hd2⟩

/-- The loop only comes back to `op_retry` with `dump_pending` set. -/
theorem at_retry_pending (k : Nat) (script : List Cycle) (g g1 : State)
    (h : at_retry (k + 1) script g = some g1) : g1.dump_pending = true := by
  induction k generalizing script g with
  | zero =>
      cases script with
      | nil => simp [at_retry] at h
      | cons c cs =>
          simp only [at_retry] at h
          split_ifs at h with hc
          rw [← Option.some.inj h]
          exact hc.2.2
  | succ k ih =>
      cases script with
      | nil => simp [at_retry] at h
      | cons c cs =>
          rw [at_retry] at h
          split_ifs at h with hc
          exact ih cs (cycle_step c g) h

/-- If the run logs more than `k` new requests, the loop came back to
`op_retry` after `k` cycles. -/
theorem at_retry_of_attempted (k : Nat) (script : List Cycle) (g : State)
    (h : (requests g).length + k < (requests (vr_get_dpdkinfo script g).2).length) :
    ∃ g1, at_retry k script g = some g1 := by
  induction k generalizing script g with
  | zero => exact ⟨g, rfl⟩
  | succ k ih =>
      cases script with
      | nil => simp [vr_get_dpdkinfo] at h
      | cons c cs =>
          rw [vr_get_dpdkinfo_cons] at h
          simp only [at_retry]
          split_ifs at h with h1 h2 h3
          · rw [requests_send] at h; simp at h
          · rw [requests_cycle_step] at h; simp at h
          · rw [if_pos ⟨not_lt.mp h1, not_le.mp h2, h3⟩]
            apply ih
            rw [requests_cycle_step]
            simp only [List.length_append, List.length_cons, List.length_nil]
            omega
          · rw [requests_cycle_step] at h; simp at h

theorem drop_of_getElem? (script : List Cycle) (k : Nat) (c : Cycle)
    (h : script[k]? = some c) : script.drop k = c :: script.drop (k + 1) := by
  obtain ⟨hk, hc⟩ := List.getElem?_eq_some_iff.mp h
  rw [← hc]
  exact List.drop_eq_getElem_cons hk

/-- The request at position `k` of a run is the one built from the state at
`op_retry` after `k` cycles. -/
theorem request_at (k : Nat) (script : List Cycle) (g : State) (r : info_dump_request)
    (h : (requests (vr_get_dpdkinfo script g).2)[(requests g).length + k]? = some r) :
    ∃ g1, at_retry k script g = some g1 ∧ r = dump_request g1 := by
  have hlt : (requests g).length + k < (requests (vr_get_dpdkinfo script g).2).length :=
    (List.getElem?_eq_some_iff.mp h).1
  obtain ⟨g1, hg1⟩ := at_retry_of_attempted k script g hlt
  refine ⟨g1, hg1, ?_⟩
  have hlen := (at_retry_state k script g g1 hg1).2.1
  rw [run_of_at_retry k script g g1 hg1] at h hlt
  cases hd : script.drop k with
  | nil =>
      rw [hd] at hlt
      simp only [vr_get_dpdkinfo] at hlt
      omega
  | cons c cs =>
      rw [hd] at h
      obtain ⟨more, hm⟩ := requests_run_cons c cs g1
      rw [hm, ← hlen, List.getElem?_append_right (le_refl _)] at h
      simpa using h.symm

/-! ## Lemmas on option handling -/

theorem driver_view_parse_long_opts (E : Env) (i : Nat) (a : Option String) (g : State) :
    driver_view (parse_long_opts E i a g).state = driver_view g := by
  simp only [parse_long_opts]
  split_ifs <;> rfl

theorem driver_view_long_options_store (i : Nat) (g : State) :
    driver_view (long_options_store i g) = driver_view g := by
  simp only [long_options_store]
  split_ifs <;> rfl

theorem driver_view_main_switch (E : Env) (r : getopt_ret) (g : State) :
    driver_view (main_switch E r g).state = driver_view g := by
  cases r with
  | long_opt i a =>
      simp only [main_switch]
      rw [driver_view_parse_long_opts, driver_view_long_options_store]
  | short_opt o a =>
      simp only [main_switch]
      split_ifs <;> rfl

theorem driver_view_main_getopt_loop (E : Env) (args : List getopt_ret) (g : State) :
    driver_view (main_getopt_loop E args g).state = driver_view g := by
  induction args generalizing g with
  | nil => rfl
  | cons r rs ih =>
      simp only [main_getopt_loop]
      have h := driver_view_main_switch E r g
      cases hm : main_switch E r g with
      | cont g1 =>
          rw [hm] at h
          simp only
          rw [ih g1]
          exact h
      | exit status g1 =>
          rw [hm] at h
          exact h

theorem driver_view_validate_options (g : State) :
    driver_view (validate_options g).state = driver_view g := by
  simp only [validate_options]
  split_ifs <;> rfl

theorem validate_options_cont (g g1 : State) (h : validate_options g = Flow.cont g1) :
    g1 = g := by
  simp only [validate_options] at h
  split_ifs at h
  · simp [Usage] at h
  · exact (Flow.cont.inj h).symm

theorem calls_of_driver_view (g : State) (h : driver_view g = driver_view init) :
    g.calls = [] :=
  congrArg (fun v => v.2.2.2) h

/-- The run of `main`: either no request is sent at all (the program exits
before the dump), or the dump runs from a state that holds the start values
of the driver and the request fields left by option parsing. -/
theorem main_run (E : Env) (args : List getopt_ret) (cl : Bool) (script : List Cycle) :
    requests (main E args cl script).2 = [] ∨
      ∃ g, main_getopt_loop E args init = Flow.cont g ∧
        ∃ g2, driver_view g2 = driver_view init ∧ g2.msginfo = g.msginfo ∧
          g2.buffsz = g.buffsz ∧ g2.vr_info_inbuf = g.vr_info_inbuf ∧
          (main E args cl script).2 = (vr_get_dpdkinfo script g2).2 := by
  have hv := driver_view_main_getopt_loop E args init
  cases hl : main_getopt_loop E args init with
  | exit status g =>
      left
      rw [hl] at hv
      simp [main, hl, requests, calls_of_driver_view g hv]
  | cont g =>
      rw [hl] at hv
      have hv2 := driver_view_validate_options g
      cases hval : validate_options g with
      | exit status g1 =>
          left
          rw [hval] at hv2
          simp [main, hl, hval, requests, calls_of_driver_view g1 (hv2.trans hv)]
      | cont g1 =>
          obtain rfl := validate_options_cont g g1 hval
          have hg2 : driver_view (if g1.sock_dir_set != 0 then set_platform_vtest g1 else g1)
              = driver_view init := by
            split_ifs
            · exact hv
            · exact hv
          have hf : (if g1.sock_dir_set != 0 then set_platform_vtest g1 else g1).msginfo
                = g1.msginfo ∧
              (if g1.sock_dir_set != 0 then set_platform_vtest g1 else g1).buffsz
                = g1.buffsz ∧
              (if g1.sock_dir_set != 0 then set_platform_vtest g1 else g1).vr_info_inbuf
                = g1.vr_info_inbuf := by
            split_ifs <;> exact ⟨rfl, rfl, rfl⟩
          cases cl with
          | false =>
              left
              have hc := calls_of_driver_view _ hg2
              simp only [main, hl, hval, Bool.not_false, if_true, requests]
              rw [hc]
              rfl
          | true =>
              right
              refine ⟨g1, rfl, _, hg2, hf.1, hf.2.1, hf.2.2, ?_⟩
              simp only [main, hl, hval, Bool.not_true, Bool.false_eq_true, if_false]
              cases hrun : vr_get_dpdkinfo script
                  (if g1.sock_dir_set != 0 then set_platform_vtest g1 else g1) with
              | mk ret g3 => cases ret <;> rfl

theorem main_getopt_loop_append (E : Env) (a b : List getopt_ret) (g g2 : State)
    (h : main_getopt_loop E (a ++ b) g = Flow.cont g2) :
    ∃ g1, main_getopt_loop E a g = Flow.cont g1 ∧ main_getopt_loop E b g1 = Flow.cont g2 := by
  induction a generalizing g with
  | nil => exact ⟨g, rfl, h⟩
  | cons r rs ih =>
      simp only [List.cons_append, main_getopt_loop] at h ⊢
      cases hm : main_switch E r g with
      | cont g1 =>
          rw [hm] at h
          exact ih g1 h
      | exit status g1 =>
          rw [hm] at h
          simp at h

/-- The lacp option, long or short, stores its argument as the filter buffer. -/
theorem inbuf_main_switch_lacp (E : Env) (x : getopt_ret) (m : Option String)
    (g g1 : State)
    (hx : x = getopt_ret.long_opt LACP_OPT_INDEX m ∨ x = getopt_ret.short_opt 'l' m)
    (h : main_switch E x g = Flow.cont g1) : g1.vr_info_inbuf = m := by
  rcases hx with rfl | rfl
  · have : main_switch E (getopt_ret.long_opt LACP_OPT_INDEX m) g =
        Flow.cont { long_options_store LACP_OPT_INDEX g with vr_info_inbuf := m } := rfl
    rw [this] at h
    rw [← Flow.cont.inj h]
  · have : main_switch E (getopt_ret.short_opt 'l' m) g =
        Flow.cont { g with lacp_set := 1, vr_info_inbuf := m } := rfl
    rw [this] at h
    rw [← Flow.cont.inj h]

/-- Any other option leaves the filter buffer alone. -/
theorem inbuf_main_switch_other (E : Env) (y : getopt_ret) (g g1 : State)
    (hy : is_lacp_opt y = false) (h : main_switch E y g = Flow.cont g1) :
    g1.vr_info_inbuf = g.vr_info_inbuf := by
  cases y with
  | long_opt i a =>
      have hi : i ≠ LACP_OPT_INDEX := by simpa [is_lacp_opt] using hy
      have hstore : (long_options_store i g).vr_info_inbuf = g.vr_info_inbuf := by
        simp only [long_options_store]
        split_ifs <;> rfl
      simp only [main_switch, parse_long_opts, if_neg hi] at h
      split_ifs at h
      · rw [← Flow.cont.inj h]; exact hstore
      · rw [← Flow.cont.inj h]; exact hstore
      · rw [← Flow.cont.inj h]; exact hstore
      · simp [Usage] at h
  | short_opt o a =>
      have ho : o ≠ 'l' := by simpa [is_lacp_opt] using hy
      simp only [main_switch, if_neg ho] at h
      split_ifs at h
      · have : parse_long_opts E BOND_OPT_INDEX a
            { g with bond_set := 1, msginfo := E.INFO_BOND } =
            Flow.cont { g with bond_set := 1, msginfo := E.INFO_BOND } := rfl
        rw [this] at h
        rw [← Flow.cont.inj h]
      · have : parse_long_opts E SOCK_DIR_OPT_INDEX a { g with sock_dir_set := 1 } =
            Flow.cont { g with sock_dir_set := 1, vr_socket_dir := a } := rfl
        rw [this] at h
        rw [← Flow.cont.inj h]
      · simp [Usage] at h

theorem inbuf_main_getopt_loop_other (E : Env) (b : List getopt_ret) (g g1 : State)
    (hb : ∀ y ∈ b, is_lacp_opt y = false) (h : main_getopt_loop E b g = Flow.cont g1) :
    g1.vr_info_inbuf = g.vr_info_inbuf := by
  induction b generalizing g with
  | nil => rw [← Flow.cont.inj h]
  | cons y ys ih =>
      simp only [main_getopt_loop] at h
      cases hm : main_switch E y g with
      | cont g2 =>
          rw [hm] at h
          rw [ih g2 (fun z hz => hb z (List.mem_cons_of_mem y hz)) h]
          exact inbuf_main_switch_other E y g g2 (hb y (List.mem_cons_self y ys)) hm
      | exit status g2 =>
          rw [hm] at h
          simp at h

/-- Every request of a run is built from a state at `op_retry`, and so carries
the category, size and filter buffer the run started with. -/
theorem request_fields_of_mem (script : List Cycle) (g : State) (r : info_dump_request)
    (hg : requests g = []) (hr : r ∈ requests (vr_get_dpdkinfo script g).2) :
    r.msginfo = g.msginfo ∧ r.buffsz = g.buffsz ∧ r.inbuf = g.vr_info_inbuf := by
  obtain ⟨k, hk⟩ := List.getElem?_of_mem hr
  have hk2 : (requests (vr_get_dpdkinfo script g).2)[(requests g).length + k]? = some r := by
    rw [hg]; simpa using hk
  obtain ⟨g1, hg1, rfl⟩ := request_at k script g r hk2
  obtain ⟨_, _, _, _, _, h1, h2, h3⟩ := at_retry_state k script g g1 hg1
  exact ⟨h1, h2, h3⟩

/-! ## The claims -/

/-- C1: when every send and receive succeeds, the first N cycles each end with
a Completion message with more=true and cycle N+1 ends with a Completion
message with more=false, `vr_get_dpdkinfo` returns 0 and sends exactly N+1
requests, whatever Payload messages (none included) each cycle carries. -/
theorem dump_sends_one_request_per_page (pre : List Cycle) (last : Cycle)
    (rest : List Cycle) (g : State)
    (hpre : ∀ c ∈ pre, 0 ≤ c.send_ret ∧ 0 < c.recv_ret ∧
      c.msgs.getLast? = some (nl_message.response ⟨true⟩))
    (hlast : 0 ≤ last.send_ret ∧ 0 < last.recv_ret ∧
      last.msgs.getLast? = some (nl_message.response ⟨false⟩)) :
    (vr_get_dpdkinfo (pre ++ last :: rest) g).1 = some 0 ∧
      (requests (vr_get_dpdkinfo (pre ++ last :: rest) g).2).length =
        (requests g).length + (pre.length + 1) := by
  induction pre generalizing g with
  | nil =>
      obtain ⟨hs, hr, hm⟩ := hlast
      have hp : (cycle_step last g).dump_pending = false := by
        rw [dump_pending_cycle_step, last_completion_of_getLast _ _ hm]; rfl
      rw [List.nil_append, vr_get_dpdkinfo_done last rest g hs hr hp]
      simp [requests_cycle_step]
  | cons c cs ih =>
      obtain ⟨hs, hr, hm⟩ := hpre c (List.mem_cons_self c cs)
      have hp : (cycle_step c g).dump_pending = true := by
        rw [dump_pending_cycle_step, last_completion_of_getLast _ _ hm]; rfl
      rw [List.cons_append, vr_get_dpdkinfo_continue c _ g hs hr hp]
      obtain ⟨h1, h2⟩ := ih (cycle_step c g) (fun d hd => hpre d (List.mem_cons_of_mem c hd))
      refine ⟨h1, ?_⟩
      rw [h2, requests_cycle_step]
      simp only [List.length_append, List.length_cons, List.length_nil]
      omega

/-- A concrete run for C1: two pages with more=true (the first without any
Payload message), then a page with more=false. -/
theorem dump_sends_one_request_per_page_witness :
    (vr_get_dpdkinfo
        ([⟨0, [nl_message.response ⟨true⟩], 1⟩,
          ⟨0, [nl_message.info_req ⟨sandesh_op.SANDESH_OP_DUMP, 4, 1, some "a"⟩,
               nl_message.response ⟨true⟩], 1⟩]
          ++ (⟨0, [nl_message.response ⟨false⟩], 1⟩ : Cycle) :: []) init).1 = some 0 ∧
      (requests (vr_get_dpdkinfo
        ([⟨0, [nl_message.response ⟨true⟩], 1⟩,
          ⟨0, [nl_message.info_req ⟨sandesh_op.SANDESH_OP_DUMP, 4, 1, some "a"⟩,
               nl_message.response ⟨true⟩], 1⟩]
          ++ (⟨0, [nl_message.response ⟨false⟩], 1⟩ : Cycle) :: []) init).2).length =
        (requests init).length + (2 + 1) :=
  dump_sends_one_request_per_page
    [⟨0, [nl_message.response ⟨true⟩], 1⟩,
      ⟨0, [nl_message.info_req ⟨sandesh_op.SANDESH_OP_DUMP, 4, 1, some "a"⟩,
           nl_message.response ⟨true⟩], 1⟩]
    ⟨0, [nl_message.response ⟨false⟩], 1⟩ [] init
    (by simp) (by simp)

/-- C2: in a run of `main`, the first request carries the start values (cursor
-1, table id 0), and the request at position `k` carries the cursor and table
id of the last DUMP Payload message handled in the cycles before it, which
are those of the previous request when the previous cycle handled no DUMP
Payload message. -/
theorem requests_carry_continuation_state (E : Env) (args : List getopt_ret) (cl : Bool)
    (script : List Cycle) (k : Nat) (r : info_dump_request)
    (h : (requests (main E args cl script).2)[k]? = some r) :
    (k = 0 → r.marker = -1 ∧ r.buff_table_id = 0) ∧
      (r.marker, r.buff_table_id) = last_dump (all_msgs (script.take k)) (-1, 0) ∧
      ∀ c r1, script[k]? = some c →
        (requests (main E args cl script).2)[k + 1]? = some r1 →
        (r1.marker, r1.buff_table_id) = last_dump c.msgs (r.marker, r.buff_table_id) := by
  rcases main_run E args cl script with hnil | ⟨g, _, g2, hv, _, _, _, hrun⟩
  · rw [hnil] at h; simp at h
  · have hcalls : requests g2 = [] := by
      simp [requests, calls_of_driver_view g2 hv]
    have hm : g2.dump_marker = -1 := congrArg (fun v => v.2.1) hv
    have ht : g2.buff_table_id = 0 := congrArg (fun v => v.2.2.1) hv
    have key : ∀ j q, (requests (main E args cl script).2)[j]? = some q →
        (q.marker, q.buff_table_id) = last_dump (all_msgs (script.take j)) (-1, 0) := by
      intro j q hq
      rw [hrun] at hq
      have hq2 : (requests (vr_get_dpdkinfo script g2).2)[(requests g2).length + j]?
          = some q := by
        rw [hcalls]; simpa using hq
      obtain ⟨g1, hg1, rfl⟩ := request_at j script g2 q hq2
      have hst := (at_retry_state j script g2 g1 hg1).2.2.2.1
      rw [hm, ht] at hst
      exact hst
    have hk := key k r h
    refine ⟨?_, hk, ?_⟩
    · intro h0
      subst h0
      have : (r.marker, r.buff_table_id) = ((-1 : Int), (0 : Int)) := by
        rw [hk]; rfl
      exact ⟨congrArg Prod.fst this, congrArg Prod.snd this⟩
    · intro c r1 hc hr1
      have h1 := key (k + 1) r1 hr1
      have htake : script.take (k + 1) = script.take k ++ [c] := by
        obtain ⟨hlt, hget⟩ := List.getElem?_eq_some_iff.mp hc
        rw [List.take_succ, List.getElem?_eq_getElem hlt, hget]
        rfl
      rw [h1, htake, hk]
      simp only [all_msgs, List.flatMap_append, List.flatMap_cons, List.flatMap_nil,
        List.append_nil]
      rw [last_dump_append]

/-- A concrete run for C2: the first request carries the start values and the
second one the values of the DUMP Payload message of the first page. -/
theorem requests_carry_continuation_state_witness :
    (requests (main env0 [opt_bond] true script_two_pages).2)[0]?
        = some ⟨0, -1, 0, 0, 0, none⟩ ∧
      (requests (main env0 [opt_bond] true script_two_pages).2)[1]?
        = some ⟨0, 5, 2, 0, 0, none⟩ ∧
      ((0 = 0 → (-1 : Int) = -1 ∧ (0 : Int) = 0) ∧
        ((-1 : Int), (0 : Int)) = last_dump (all_msgs (script_two_pages.take 0)) (-1, 0) ∧
        ∀ c r1, script_two_pages[0]? = some c →
          (requests (main env0 [opt_bond] true script_two_pages).2)[0 + 1]? = some r1 →
          (r1.marker, r1.buff_table_id) = last_dump c.msgs (-1, 0)) :=
  ⟨by decide, by decide,
    requests_carry_continuation_state env0 [opt_bond] true script_two_pages 0
      ⟨0, -1, 0, 0, 0, none⟩ (by decide)⟩

/-- C3: a cycle whose receive succeeds and delivers Payload messages with
non-null text buffers followed by a Completion message with more=false makes
`vr_get_dpdkinfo` return 0 after exactly one request, and standard output
grows by exactly the concatenation of the Payload texts in receipt order. -/
theorem single_page_prints_every_payload (ps : List vr_info_req) (texts : List String)
    (s r : Int) (rest : List Cycle) (g : State)
    (htext : ps.map (fun p => p.vdu_proc_info) = texts.map some)
    (hs : 0 ≤ s) (hr : 0 < r) :
    (vr_get_dpdkinfo
        (⟨s, ps.map nl_message.info_req ++ [nl_message.response ⟨false⟩], r⟩ :: rest) g).1
        = some 0 ∧
      requests (vr_get_dpdkinfo
        (⟨s, ps.map nl_message.info_req ++ [nl_message.response ⟨false⟩], r⟩ :: rest) g).2
        = requests g ++ [dump_request g] ∧
      (vr_get_dpdkinfo
        (⟨s, ps.map nl_message.info_req ++ [nl_message.response ⟨false⟩], r⟩ :: rest) g).2.stdout
        = g.stdout ++ String.join texts := by
  have hp : (cycle_step ⟨s, ps.map nl_message.info_req ++ [nl_message.response ⟨false⟩], r⟩
      g).dump_pending = false := by
    rw [dump_pending_cycle_step, last_completion_of_getLast _ false (by simp)]; rfl
  rw [vr_get_dpdkinfo_done _ rest g hs hr hp]
  refine ⟨rfl, requests_cycle_step _ g, ?_⟩
  rw [stdout_cycle_step]
  have ht : (ps.map nl_message.info_req ++ [nl_message.response ⟨false⟩]).filterMap
      payload_text = texts := by
    have h1 : ps.filterMap (fun p => p.vdu_proc_info) = texts := by
      have := congrArg (List.filterMap id) htext
      simpa [List.filterMap_map] using this
    rw [List.filterMap_append, List.filterMap_map]
    simpa [payload_text, Function.comp_def] using h1
  simp only [ht]

/-- A concrete run for C3: two Payload messages and a final Completion. -/
theorem single_page_prints_every_payload_witness :
    (vr_get_dpdkinfo
        [⟨0, [nl_message.info_req ⟨sandesh_op.SANDESH_OP_DUMP, 3, 1, some "bond0\n"⟩,
              nl_message.info_req ⟨sandesh_op.SANDESH_OP_DUMP, 7, 1, some "slave\n"⟩,
              nl_message.response ⟨false⟩], 1⟩] init).1 = some 0 ∧
      requests (vr_get_dpdkinfo
        [⟨0, [nl_message.info_req ⟨sandesh_op.SANDESH_OP_DUMP, 3, 1, some "bond0\n"⟩,
              nl_message.info_req ⟨sandesh_op.SANDESH_OP_DUMP, 7, 1, some "slave\n"⟩,
              nl_message.response ⟨false⟩], 1⟩] init).2 = [dump_request init] ∧
      (vr_get_dpdkinfo
        [⟨0, [nl_message.info_req ⟨sandesh_op.SANDESH_OP_DUMP, 3, 1, some "bond0\n"⟩,
              nl_message.info_req ⟨sandesh_op.SANDESH_OP_DUMP, 7, 1, some "slave\n"⟩,
              nl_message.response ⟨false⟩], 1⟩] init).2.stdout = "bond0\nslave\n" :=
  single_page_prints_every_payload
    [⟨sandesh_op.SANDESH_OP_DUMP, 3, 1, some "bond0\n"⟩,
      ⟨sandesh_op.SANDESH_OP_DUMP, 7, 1, some "slave\n"⟩]
    ["bond0\n", "slave\n"] 0 1 [] init rfl (by decide) (by decide)

/-- C4 (the code at the failing input): with `--bond` given and the first send
failing with -1, `vr_get_dpdkinfo` returns -1 and `main` returns 0; the same
holds when the second send fails. -/
theorem main_returns_zero_after_failed_send (E : Env) :
    (vr_get_dpdkinfo script_first_send_fails
        (main_getopt_loop E [opt_bond] init).state).1 = some (-1) ∧
      (main E [opt_bond] true script_first_send_fails).1 = some 0 ∧
      (vr_get_dpdkinfo script_second_send_fails
        (main_getopt_loop E [opt_bond] init).state).1 = some (-5) ∧
      (main E [opt_bond] true script_second_send_fails).1 = some 0 :=
  ⟨rfl, rfl, rfl, rfl⟩

/-- C5: when the send of the cycle at position `k` is attempted and reports a
negative result, `vr_get_dpdkinfo` returns that same value, that send is the
last transport call (no receive follows it), and no further request is sent:
the run has exactly `k + 1` requests and `k` receives. -/
theorem failed_send_stops_the_dump (script : List Cycle) (g : State) (k : Nat) (c : Cycle)
    (hc : script[k]? = some c) (hneg : c.send_ret < 0)
    (hatt : (requests g).length + k < (requests (vr_get_dpdkinfo script g).2).length) :
    (vr_get_dpdkinfo script g).1 = some c.send_ret ∧
      (requests (vr_get_dpdkinfo script g).2).length = (requests g).length + k + 1 ∧
      receives (vr_get_dpdkinfo script g).2 = receives g + k ∧
      ∃ req, (vr_get_dpdkinfo script g).2.calls.getLast? = some (nl_call.send req) := by
  obtain ⟨g1, hg1⟩ := at_retry_of_attempted k script g hatt
  obtain ⟨_, hreq, hrecv, _⟩ := at_retry_state k script g g1 hg1
  rw [run_of_at_retry k script g g1 hg1, drop_of_getElem? script k c hc,
    vr_get_dpdkinfo_cons, if_pos hneg]
  refine ⟨rfl, ?_, ?_, dump_request g1, ?_⟩
  · rw [requests_send, List.length_append, hreq]; rfl
  · rw [receives_send, hrecv]
  · simp [vr_send_info_dump]

/-- A concrete run for C5: the second send fails with -5 after a first page
with more=true. -/
theorem failed_send_stops_the_dump_witness :
    (vr_get_dpdkinfo script_second_send_fails init).1 = some (-5) ∧
      (requests (vr_get_dpdkinfo script_second_send_fails init).2).length
        = (requests init).length + 1 + 1 ∧
      receives (vr_get_dpdkinfo script_second_send_fails init).2 = receives init + 1 ∧
      ∃ req, (vr_get_dpdkinfo script_second_send_fails init).2.calls.getLast?
        = some (nl_call.send req) :=
  failed_send_stops_the_dump script_second_send_fails init 1 ⟨-5, [], 0⟩
    (by decide) (by decide) (by decide)

/-- C6 (counterexample): the receive reports end-of-stream (result 0) in a
cycle that delivered a Payload message and no Completion message, and
`vr_get_dpdkinfo` returns 0, the success result, where the claim requires a
result different from 0. -/
theorem end_of_stream_returns_success_result :
    cycle_end_of_stream.recv_ret ≤ 0 ∧
      last_completion cycle_end_of_stream.msgs = none ∧
      (vr_get_dpdkinfo [cycle_end_of_stream, ⟨0, [no_more], 1⟩] init).1 = some 0 := by
  decide

/-- C6 (amended): when the receive of the cycle at position `k` is attempted
and reports a result `<= 0`, `vr_get_dpdkinfo` sends no further request and
returns that receive result itself, which differs from the success result 0
exactly when the receive result is negative. -/
theorem failed_receive_stops_the_dump (script : List Cycle) (g : State) (k : Nat)
    (c : Cycle) (hc : script[k]? = some c) (hs : 0 ≤ c.send_ret) (hr : c.recv_ret ≤ 0)
    (hatt : (requests g).length + k < (requests (vr_get_dpdkinfo script g).2).length) :
    (vr_get_dpdkinfo script g).1 = some c.recv_ret ∧
      (requests (vr_get_dpdkinfo script g).2).length = (requests g).length + k + 1 ∧
      ((vr_get_dpdkinfo script g).1 ≠ some 0 ↔ c.recv_ret < 0) := by
  obtain ⟨g1, hg1⟩ := at_retry_of_attempted k script g hatt
  obtain ⟨_, hreq, _⟩ := at_retry_state k script g g1 hg1
  rw [run_of_at_retry k script g g1 hg1, drop_of_getElem? script k c hc,
    vr_get_dpdkinfo_cons, if_neg (not_lt.mpr hs), if_pos hr]
  refine ⟨rfl, ?_, ?_⟩
  · rw [requests_cycle_step, List.length_append, hreq]; rfl
  · simp only [ne_eq, Option.some.injEq]
    omega

/-- A concrete run for C6 (amended): the second receive fails with -1. -/
theorem failed_receive_stops_the_dump_witness :
    (vr_get_dpdkinfo script_second_recv_fails init).1 = some (-1) ∧
      (requests (vr_get_dpdkinfo script_second_recv_fails init).2).length
        = (requests init).length + 1 + 1 ∧
      ((vr_get_dpdkinfo script_second_recv_fails init).1 ≠ some 0 ↔ (-1 : Int) < 0) :=
  failed_receive_stops_the_dump script_second_recv_fails init 1 ⟨0, [], -1⟩
    (by decide) (by decide) (by decide) (by decide)

/-- C7 (counterexample): the receive of the second cycle succeeds and delivers
no Completion message, and a third request is sent all the same, on the
`dump_pending` flag left by the first cycle. -/
theorem request_sent_after_cycle_without_completion :
    0 < cycle_without_completion.recv_ret ∧
      last_completion cycle_without_completion.msgs = none ∧
      script_missing_completion[1]? = some cycle_without_completion ∧
      (requests (main env0 [opt_bond] true script_missing_completion).2).length = 3 := by
  decide

/-- C7 (amended): in a run of `main`, a request other than the first is sent
only if the send and the receive of the immediately preceding cycle succeeded
and the last Completion message delivered in the run up to then, in that
cycle or an earlier one, had more=true. -/
theorem next_request_needs_pending_flag (E : Env) (args : List getopt_ret) (cl : Bool)
    (script : List Cycle) (k : Nat)
    (h : k + 1 < (requests (main E args cl script).2).length) :
    ∃ c, script[k]? = some c ∧ 0 ≤ c.send_ret ∧ 0 < c.recv_ret ∧
      last_completion (all_msgs (script.take (k + 1))) = some true := by
  rcases main_run E args cl script with hnil | ⟨g, _, g2, hv, _, _, _, hrun⟩
  · rw [hnil] at h; simp at h
  · have hcalls : requests g2 = [] := by
      simp [requests, calls_of_driver_view g2 hv]
    have hp : g2.dump_pending = false := congrArg (fun v => v.1) hv
    rw [hrun] at h
    have hatt : (requests g2).length + (k + 1)
        < (requests (vr_get_dpdkinfo script g2).2).length := by
      rw [hcalls]; simpa using h
    obtain ⟨g1, hg1⟩ := at_retry_of_attempted (k + 1) script g2 hatt
    obtain ⟨c, hc, hs, hr⟩ := at_retry_cycles (k + 1) script g2 g1 hg1 k (by omega)
    refine ⟨c, hc, hs, hr, ?_⟩
    have hpend := (at_retry_state (k + 1) script g2 g1 hg1).2.2.2.2.1
    rw [hp] at hpend
    rw [at_retry_pending k script g2 g1 hg1] at hpend
    cases hlc : last_completion (all_msgs (script.take (k + 1))) with
    | none => rw [hlc] at hpend; simp at hpend
    | some b => rw [hlc] at hpend; simpa using hpend.symm

/-- A concrete run for C7 (amended). -/
theorem next_request_needs_pending_flag_witness :
    ∃ c, script_missing_completion[1]? = some c ∧ 0 ≤ c.send_ret ∧ 0 < c.recv_ret ∧
      last_completion (all_msgs (script_missing_completion.take (1 + 1))) = some true :=
  next_request_needs_pending_flag env0 [opt_bond] true script_missing_completion 1
    (by decide)

/-- C8 (the code at the failing input): with only the lacp option given, long
or short form, every request of the run carries the initial `msginfo` of the
program, which option parsing never assigns on this path. -/
theorem lacp_option_leaves_msginfo_initial (E : Env) (m : String) (cl : Bool)
    (script : List Cycle) :
    (requests (main E [getopt_ret.long_opt LACP_OPT_INDEX (some m)] cl script).2).map
        (fun r => r.msginfo) =
      List.replicate
        (requests (main E [getopt_ret.long_opt LACP_OPT_INDEX (some m)] cl script).2).length
        init.msginfo ∧
    (requests (main E [getopt_ret.short_opt 'l' (some m)] cl script).2).map
        (fun r => r.msginfo) =
      List.replicate
        (requests (main E [getopt_ret.short_opt 'l' (some m)] cl script).2).length
        init.msginfo ∧
    (requests (main E [opt_lacp_status] true script_two_pages).2).map
        (fun r => r.msginfo) = [init.msginfo, init.msginfo] := by
  have key : ∀ x : getopt_ret, (main_getopt_loop E [x] init).state.msginfo = init.msginfo →
      (requests (main E [x] cl script).2).map (fun r => r.msginfo) =
        List.replicate (requests (main E [x] cl script).2).length init.msginfo := by
    intro x hx
    rw [List.eq_replicate_iff]
    refine ⟨List.length_map _ _, ?_⟩
    intro v hv
    obtain ⟨r, hr, rfl⟩ := List.mem_map.mp hv
    rcases main_run E [x] cl script with hnil | ⟨g, hloop, g2, hdv, hmi, _, _, hrun⟩
    · rw [hnil] at hr; simp at hr
    · have hcalls : requests g2 = [] := by
        simp [requests, calls_of_driver_view g2 hdv]
      rw [hrun] at hr
      rw [(request_fields_of_mem script g2 r hcalls hr).1, hmi]
      rw [hloop] at hx
      exact hx
  exact ⟨key _ rfl, key _ rfl, rfl⟩

/-- C9: when the last lacp option (long or short form) has the argument `m`,
every request of the run carries exactly `m` as its filter buffer, and all
requests of the run carry the same category and the same max response size:
the messages received in between change none of the three. -/
theorem lacp_filter_is_forwarded (E : Env) (a b : List getopt_ret) (x : getopt_ret)
    (m : String) (cl : Bool) (script : List Cycle) (r r1 : info_dump_request)
    (hx : x = getopt_ret.long_opt LACP_OPT_INDEX (some m) ∨
      x = getopt_ret.short_opt 'l' (some m))
    (hb : ∀ y ∈ b, is_lacp_opt y = false)
    (hr : r ∈ requests (main E (a ++ x :: b) cl script).2)
    (hr1 : r1 ∈ requests (main E (a ++ x :: b) cl script).2) :
    r.inbuf = some m ∧ r1.inbuf = r.inbuf ∧ r1.msginfo = r.msginfo ∧
      r1.buffsz = r.buffsz := by
  rcases main_run E (a ++ x :: b) cl script with hnil | ⟨g, hloop, g2, hv, hmi, hbs, hin, hrun⟩
  · rw [hnil] at hr; simp at hr
  · have hcalls : requests g2 = [] := by
      simp [requests, calls_of_driver_view g2 hv]
    rw [hrun] at hr hr1
    obtain ⟨p1, p2, p3⟩ := request_fields_of_mem script g2 r hcalls hr
    obtain ⟨q1, q2, q3⟩ := request_fields_of_mem script g2 r1 hcalls hr1
    refine ⟨?_, q3.trans p3.symm, q1.trans p1.symm, q2.trans p2.symm⟩
    obtain ⟨ga, _, hxb⟩ := main_getopt_loop_append E a (x :: b) init g hloop
    simp only [main_getopt_loop] at hxb
    cases hm : main_switch E x ga with
    | cont gx =>
        rw [hm] at hxb
        rw [p3, hin, inbuf_main_getopt_loop_other E b gx g hb hxb]
        exact inbuf_main_switch_lacp E x (some m) ga gx hx hm
    | exit status gx =>
        rw [hm] at hxb
        simp at hxb

/-- A concrete run for C9: `--lacp status` and two pages. -/
theorem lacp_filter_is_forwarded_witness :
    (⟨0, -1, 0, 0, 0, some "status"⟩ : info_dump_request)
        ∈ requests (main env0 ([] ++ opt_lacp_status :: []) true script_two_pages).2 ∧
      (⟨0, 5, 2, 0, 0, some "status"⟩ : info_dump_request)
        ∈ requests (main env0 ([] ++ opt_lacp_status :: []) true script_two_pages).2 ∧
      ((some "status" : Option String) = some "status" ∧
        (some "status" : Option String) = some "status" ∧ (0 : Int) = 0 ∧ (0 : Int) = 0) :=
  ⟨by decide, by decide,
    lacp_filter_is_forwarded env0 [] [] opt_lacp_status "status" true script_two_pages
      ⟨0, -1, 0, 0, 0, some "status"⟩ ⟨0, 5, 2, 0, 0, some "status"⟩
      (Or.inl rfl) (by simp) (by decide) (by decide)⟩

/-- C10: for a Payload message handled by `dpdkinfo_resp_cb_process`, a DUMP
operation makes the cursor the message's `vdu_index` and the table id the
message's `vdu_buff_table_id`, any other operation leaves both unchanged, and
in both cases `dump_pending`, the category, the filter buffer and `buffsz`
are unchanged. -/
theorem payload_handler_effect (resp : vr_info_req) (g : State) :
    (dpdkinfo_resp_cb_process resp g).dump_marker =
        (if resp.h_op = sandesh_op.SANDESH_OP_DUMP then resp.vdu_index else g.dump_marker) ∧
      (dpdkinfo_resp_cb_process resp g).buff_table_id =
        (if resp.h_op = sandesh_op.SANDESH_OP_DUMP then resp.vdu_buff_table_id
          else g.buff_table_id) ∧
      (dpdkinfo_resp_cb_process resp g).dump_pending = g.dump_pending ∧
      (dpdkinfo_resp_cb_process resp g).msginfo = g.msginfo ∧
      (dpdkinfo_resp_cb_process resp g).vr_info_inbuf = g.vr_info_inbuf ∧
      (dpdkinfo_resp_cb_process resp g).buffsz = g.buffsz := by
  simp only [dpdkinfo_resp_cb_process]
  cases resp.vdu_proc_info <;> split <;> exact ⟨rfl, rfl, rfl, rfl, rfl, rfl⟩

end Dpdkinfo
